import Mathlib

/-!
Shallow embedding of the signal-detection and deduplicated-alerting core of
the tennis-odds-alert repository (src/main.py and src/nba_alerts.py).

Conventions of the embedding:
* Python `float` values (prices, probabilities, Unix timestamps) are embedded
  as `ℚ`; the claims under study are order/arithmetic facts that do not
  depend on binary rounding.
* Python `dict` values are embedded as association lists in insertion order
  (`List (String × ℚ)`); `d.get(k, 0)` and `k in d` are embedded through a
  first-match lookup.
* Fallible operations are embedded with `Option`/`Except`: a raised-and-
  propagated exception is `Except.error`, a swallowed one disappears as it
  does in the source.
-/

namespace TennisOddsAlert

/-- `dict[str, float]` in insertion order: one bookmaker's quoted prices, or
the persisted dedup cache. -/
abbrev BookLines := List (String × ℚ)

/-- First-match key lookup, the embedding of Python `d[k]` / `k in d` /
`d.get(k)` for a dict represented as an insertion-ordered association list. -/
def lookupBook : BookLines → String → Option ℚ
  | [], _ => none
  | (k', v) :: rest, k => if k' = k then some v else lookupBook rest k

/-- `src/main.py` line 15: `SHARP_BOOKS = ["pinnacle", "betfair_exchange"]`. -/
def SHARP_BOOKS : List String := ["pinnacle", "betfair_exchange"]

/-- `src/main.py` lines 44-45:
`implied_prob(decimal_odds) = 0.0 if not decimal_odds or decimal_odds <= 0
else 1.0 / decimal_odds`.  Python truthiness of a float (`not decimal_odds`)
is `decimal_odds = 0`. -/
def implied_prob (decimal_odds : ℚ) : ℚ :=
  if decimal_odds = 0 ∨ decimal_odds ≤ 0 then 0 else 1 / decimal_odds

/-- `src/main.py` lines 48-55, `kelly_fraction(decimal_odds, fair_prob)`:
`b = decimal_odds - 1; if b <= 0: return 0; q = 1 - fair_prob;
edge = b*fair_prob - q; f = edge/b; return max(0, f)`. -/
def kelly_fraction (decimal_odds fair_prob : ℚ) : ℚ :=
  let b := decimal_odds - 1
  if b ≤ 0 then 0
  else
    let q := 1 - fair_prob
    let edge := b * fair_prob - q
    let f := edge / b
    max 0 f

/-- `src/main.py` lines 126-128, the sharp-book loop of `pick_fair_prob`:
for each `sb` in the priority list, if `sb in book_lines and book_lines[sb]
and book_lines[sb] > 1.0`, return `(sb, 1.0 / book_lines[sb])`. -/
def pickFairProbSharp (book_lines : BookLines) : List String → Option (String × ℚ)
  | [] => none
  | sb :: rest =>
    match lookupBook book_lines sb with
    | some p => if p ≠ 0 ∧ 1 < p then some (sb, 1 / p) else pickFairProbSharp book_lines rest
    | none => pickFairProbSharp book_lines rest

/-- `src/main.py` line 129: `imps = [1.0/x for x in book_lines.values() if x and x > 1.0]`. -/
def imps (book_lines : BookLines) : List ℚ :=
  ((book_lines.map Prod.snd).filter (fun x => decide (x ≠ 0 ∧ 1 < x))).map (fun x => 1 / x)

/-- `src/main.py` lines 124-132, `pick_fair_prob(book_lines)`:
try the sharp books in priority order; otherwise if `imps` is empty return
`("", 0.0)`, else return `("consensus", sum(imps)/len(imps))`. -/
def pick_fair_prob (book_lines : BookLines) : String × ℚ :=
  match pickFairProbSharp book_lines SHARP_BOOKS with
  | some r => r
  | none =>
    if imps book_lines = [] then ("", 0)
    else ("consensus", (imps book_lines).sum / ((imps book_lines).length : ℚ))

/-- `src/main.py` lines 213: `edge = price * fair_prob - 1.0`. -/
def edge (price fair_prob : ℚ) : ℚ := price * fair_prob - 1

/-- `src/main.py` lines 195-199 of `run_scan`: the two-leg normalization.
`if fair1 <= 0 or fair2 <= 0: continue` (skip the whole event, embedded as
`none`); `s = fair1 + fair2; if s > 0: fair1, fair2 = fair1/s, fair2/s`. -/
def normalizePair (fair1 fair2 : ℚ) : Option (ℚ × ℚ) :=
  if fair1 ≤ 0 ∨ fair2 ≤ 0 then none
  else
    let s := fair1 + fair2
    if 0 < s then some (fair1 / s, fair2 / s) else some (fair1, fair2)

/-- Left-pad a string with `'0'` up to length `width`, for fixed-width
fractional parts. -/
def padZeroes (width : ℕ) (s : String) : String :=
  String.mk (List.replicate (width - s.length) '0') ++ s

/-- Embedding of Python fixed-point formatting `f"{q:.d}f"` on a rational:
round `q` to `d` fractional digits and render sign, integer part, `'.'`,
and a zero-padded `d`-digit fractional part.  (Ties round half-up here;
CPython rounds the underlying binary double half-even — the two agree on
every value the claims touch.) -/
def formatFixed (d : ℕ) (q : ℚ) : String :=
  let scaled : ℤ := round (q * ((10 : ℚ) ^ d))
  let sign := if scaled < 0 then "-" else ""
  let n := scaled.natAbs
  sign ++ toString (n / 10 ^ d) ++ "." ++ padZeroes d (toString (n % 10 ^ d))

/-- `src/main.py` lines 79-82, `event_key`:
`f"{ev_id}|{book}|{pick_name}|{price:.3f}|{fair_prob:.5f}|{basis}"`. -/
def event_key (ev_id book pick_name : String) (price fair_prob : ℚ) (basis : String) : String :=
  ev_id ++ "|" ++ book ++ "|" ++ pick_name ++ "|" ++ formatFixed 3 price ++ "|" ++
    formatFixed 5 fair_prob ++ "|" ++ basis

/-- `src/nba_alerts.py` lines 136-142, `qualifies_pattern_a(points)`:
`len(points) == 5 and all(p >= 20 for p in points[:4]) and points[4] < 20`. -/
def qualifies_pattern_a (points : List ℤ) : Bool :=
  decide (points.length = 5) && (points.take 4).all (fun p => decide (20 ≤ p)) &&
    decide (points.getD 4 0 < 20)

/-- `src/nba_alerts.py` lines 145-147, `qualifies_pattern_b(points)`:
`len(points) == 5 and all(p >= 20 for p in points)`. -/
def qualifies_pattern_b (points : List ℤ) : Bool :=
  decide (points.length = 5) && points.all (fun p => decide (20 ≤ p))

/-- The pattern string assigned by `src/nba_alerts.py` line 202 when
`qualifies_pattern_b` holds ("sustained-five" in the spec's terms). -/
def patternB : String := "5 jogos consecutivos com 20+ pontos"

/-- The pattern string assigned by `src/nba_alerts.py` line 204 when
`qualifies_pattern_a` holds ("four-then-drop" in the spec's terms). -/
def patternA : String := "4 jogos com 20+ seguidos de um <20"

/-- `src/nba_alerts.py` lines 200-204 of `main`: `pattern = None;
if qualifies_pattern_b(points): pattern = ...; elif qualifies_pattern_a(points):
pattern = ...` — pattern B ("sustained-five") is checked first. -/
def classifyPattern (points : List ℤ) : Option String :=
  if qualifies_pattern_b points then some patternB
  else if qualifies_pattern_a points then some patternA
  else none

/-- The persisted dedup cache: fingerprint string → Unix timestamp. -/
abbrev Cache := List (String × ℚ)

/-- `sent.get(k, 0)` / `sent_cache.get(key, 0)`: lookup with default `0`
(`src/main.py` line 220, `src/nba_alerts.py` line 197). -/
def cacheGetD (sent : Cache) (k : String) : ℚ :=
  (lookupBook sent k).getD 0

/-- Python dict upsert `sent[k] = v`: replace in place if the key exists,
append otherwise. -/
def insertCache : Cache → String → ℚ → Cache
  | [], k, v => [(k, v)]
  | (k', v') :: rest, k, v =>
    if k' = k then (k, v) :: rest else (k', v') :: insertCache rest k v

/-- The suppression test shared by both scanners
(`src/main.py` lines 220-221, `src/nba_alerts.py` lines 197-198):
`last = sent.get(k, 0); suppress iff now - last < cooldown_seconds`.
The spec names it `should_suppress(fingerprint, now, cooldown_seconds)`. -/
def should_suppress (sent : Cache) (k : String) (now cooldown_seconds : ℚ) : Bool :=
  decide (now - cacheGetD sent k < cooldown_seconds)

/-- Observable effects of one scanner run, in order. -/
inductive ScanEvent
  | dispatched (k : String)
  | warned
  | saved (m : Cache)
deriving DecidableEq

/-- How many `saved` events a trace holds. -/
def countSaves (evs : List ScanEvent) : ℕ :=
  (evs.filter (fun e => match e with | ScanEvent.saved _ => true | _ => false)).length

/-- One dispatch-eligible candidate of a run, with the environment's verdict
on its delivery: `key` the fingerprint, `sendOk` whether the underlying
Telegram POST succeeds, `hasPattern` whether the NBA pattern matcher fires
for it (always `true` for the tennis scanner, which filters earlier). -/
structure Cand where
  key : String
  sendOk : Bool
  hasPattern : Bool

/-- `src/main.py` lines 220-244, the dedup-and-dispatch tail of `run_scan`
for one candidate: skip when suppressed; otherwise `try: send_telegram(...);
sent[k] = now.timestamp()` — a raised send skips the cache write (`except`
prints a warning). -/
def tennisStep (now cooldown : ℚ) (st : Cache × List ScanEvent) (c : Cand) :
    Cache × List ScanEvent :=
  if should_suppress st.1 c.key now cooldown then st
  else if c.sendOk then (insertCache st.1 c.key now, st.2 ++ [ScanEvent.dispatched c.key])
  else (st.1, st.2 ++ [ScanEvent.warned])

/-- `src/main.py` lines 135-250, `run_scan`, abstracted over the fetched
candidates: fold the per-candidate step over the run, then
`with open(cache_file, "w") as f: json.dump(sent, f)` — the save is NOT
inside a `try`, so a failed save propagates out of `run_scan`. -/
def run_scan (cands : List Cand) (cache0 : Cache) (now cooldown : ℚ) (saveOk : Bool) :
    Except String (Cache × List ScanEvent) :=
  let fin := cands.foldl (tennisStep now cooldown) (cache0, [])
  if saveOk then Except.ok (fin.1, fin.2 ++ [ScanEvent.saved fin.1])
  else Except.error "save failed"

/-- `src/nba_alerts.py` lines 53-69, `send_telegram`: the POST and
`raise_for_status` sit inside `try/except`, so a failed dispatch is
swallowed (a warning is printed) and the function returns normally either
way. -/
def nbaSendTelegram (k : String) (sendOk : Bool) : List ScanEvent :=
  if sendOk then [ScanEvent.dispatched k] else [ScanEvent.warned]

/-- `src/nba_alerts.py` lines 196-208 of `main`, one player: skip when
suppressed; evaluate the pattern; when a pattern fires, call
`send_telegram(msg)` (which swallows failure) and then unconditionally
`sent_cache[key] = now_ts`. -/
def nbaStep (now cooldown : ℚ) (st : Cache × List ScanEvent) (c : Cand) :
    Cache × List ScanEvent :=
  if should_suppress st.1 c.key now cooldown then st
  else if c.hasPattern then
    (insertCache st.1 c.key now, st.2 ++ nbaSendTelegram c.key c.sendOk)
  else st

/-- `src/nba_alerts.py` lines 169-217, `main`, abstracted over the fetched
players: fold the per-player step, then save the cache inside
`try: ... except: pass` — a failed save is swallowed and nothing is
written. -/
def nbaMain (cands : List Cand) (cache0 : Cache) (now cooldown : ℚ) (saveOk : Bool) :
    Cache × List ScanEvent :=
  let fin := cands.foldl (nbaStep now cooldown) (cache0, [])
  if saveOk then (fin.1, fin.2 ++ [ScanEvent.saved fin.1]) else fin

/-- Guarded division: `none` exactly when the source's `/` would raise
`ZeroDivisionError`. -/
def safeDiv (a b : ℚ) : Option ℚ :=
  if b = 0 then none else some (a / b)

/-- `implied_prob` with its division routed through `safeDiv`. -/
def impliedProbChecked (decimal_odds : ℚ) : Option ℚ :=
  if decimal_odds = 0 ∨ decimal_odds ≤ 0 then some 0 else safeDiv 1 decimal_odds

/-- The sharp-book loop of `pick_fair_prob` with its division routed through
`safeDiv`: `none` = a division by zero was reached, `some none` = no sharp
book qualified, `some (some r)` = result `r`. -/
def pickFairProbSharpChecked (book_lines : BookLines) :
    List String → Option (Option (String × ℚ))
  | [] => some none
  | sb :: rest =>
    match lookupBook book_lines sb with
    | some p =>
      if p ≠ 0 ∧ 1 < p then (safeDiv 1 p).map (fun ip => some (sb, ip))
      else pickFairProbSharpChecked book_lines rest
    | none => pickFairProbSharpChecked book_lines rest

/-- Evaluate the guarded reciprocals of a list left to right, as the `imps`
comprehension does, failing as soon as one divides by zero. -/
def seqReciprocals : List ℚ → Option (List ℚ)
  | [] => some []
  | x :: rest =>
    match safeDiv 1 x, seqReciprocals rest with
    | some y, some ys => some (y :: ys)
    | _, _ => none

/-- The `imps` comprehension with each `1.0/x` routed through `safeDiv`. -/
def impsChecked (book_lines : BookLines) : Option (List ℚ) :=
  seqReciprocals ((book_lines.map Prod.snd).filter (fun x => decide (x ≠ 0 ∧ 1 < x)))

/-- `pick_fair_prob` with every division routed through `safeDiv`. -/
def pickFairProbChecked (book_lines : BookLines) : Option (String × ℚ) :=
  match pickFairProbSharpChecked book_lines SHARP_BOOKS with
  | none => none
  | some (some r) => some r
  | some none =>
    match impsChecked book_lines with
    | none => none
    | some l =>
      if l = [] then some ("", 0)
      else (safeDiv l.sum (l.length : ℚ)).map (fun m => ("consensus", m))

/-- `kelly_fraction` with its division routed through `safeDiv`. -/
def kellyFractionChecked (decimal_odds fair_prob : ℚ) : Option ℚ :=
  let b := decimal_odds - 1
  if b ≤ 0 then some 0
  else (safeDiv (b * fair_prob - (1 - fair_prob)) b).map (fun f => max 0 f)

/-- A sharp book qualifies in `pick_fair_prob` when it is present and has a
truthy price strictly above `1.0` (`src/main.py` line 127). -/
def sharpQualifies (book_lines : BookLines) (sb : String) : Prop :=
  ∃ p, lookupBook book_lines sb = some p ∧ p ≠ 0 ∧ 1 < p

/- ------------------------------------------------------------------ -/
/- Theorems                                                           -/
/- ------------------------------------------------------------------ -/

/-- Claim C8 counterexample: as literally stated ("for every fixed
fair_prob, price1 ≤ price2 implies edge(price1, fair_prob) ≤
edge(price2, fair_prob)"), monotonicity in the price fails at the explicit
input fair_prob = -1, price1 = 1, price2 = 2. -/
theorem edge_price_monotone_fails :
    (1 : ℚ) ≤ 2 ∧ ¬ edge 1 (-1) ≤ edge 2 (-1) := by
  refine ⟨by norm_num, ?_⟩
  simp only [edge]
  norm_num

/-- Claim C8 (amended): `edge(price, fair_prob) = price * fair_prob - 1` is
monotonically increasing in `price` for every fixed `fair_prob ≥ 0` and in
`fair_prob` for every fixed `price ≥ 0`, and the increase is strict on the
inputs' valid domains (the other argument positive, as it always is at the
call site `src/main.py` line 213). -/
theorem edge_monotone (p₁ p₂ f₁ f₂ pr fa : ℚ) :
    (0 ≤ fa → p₁ ≤ p₂ → edge p₁ fa ≤ edge p₂ fa) ∧
    (0 ≤ pr → f₁ ≤ f₂ → edge pr f₁ ≤ edge pr f₂) ∧
    (0 < fa → p₁ < p₂ → edge p₁ fa < edge p₂ fa) ∧
    (0 < pr → f₁ < f₂ → edge pr f₁ < edge pr f₂) := by
  refine ⟨?_, ?_, ?_, ?_⟩ <;> intro h hle <;> simp only [edge]
  · exact sub_le_sub_right (mul_le_mul_of_nonneg_right hle h) 1
  · exact sub_le_sub_right (mul_le_mul_of_nonneg_left hle h) 1
  · exact sub_lt_sub_right (mul_lt_mul_of_pos_right hle h) 1
  · exact sub_lt_sub_right (mul_lt_mul_of_pos_left hle h) 1

/-- Witness for `edge_monotone` at price pair (3/2, 2) and fair-probability
pair (1/4, 1/2). -/
theorem edge_monotone_witness :
    edge (3/2) (1/2) ≤ edge 2 (1/2) ∧ edge 2 (1/4) < edge 2 (1/2) :=
  ⟨(edge_monotone (3/2) 2 0 0 0 (1/2)).1 (by norm_num) (by norm_num),
   (edge_monotone 0 0 (1/4) (1/2) 2 0).2.2.2 (by norm_num) (by norm_num)⟩

/-- Claim C9: for `0 ≤ fair_prob ≤ 1`, `kelly_fraction decimal_odds
fair_prob` lies in `[0, fair_prob]`; it is `0` whenever `decimal_odds ≤ 1`,
otherwise it equals `max 0 ((b*fair_prob - (1 - fair_prob)) / b)` with
`b = decimal_odds - 1`; hence the recommended stake fraction never exceeds
`1`. -/
theorem kelly_fraction_bounds (decimal_odds fair_prob : ℚ)
    (h0 : 0 ≤ fair_prob) (h1 : fair_prob ≤ 1) :
    0 ≤ kelly_fraction decimal_odds fair_prob ∧
    kelly_fraction decimal_odds fair_prob ≤ fair_prob ∧
    (decimal_odds ≤ 1 → kelly_fraction decimal_odds fair_prob = 0) ∧
    (1 < decimal_odds →
      kelly_fraction decimal_odds fair_prob =
        max 0 (((decimal_odds - 1) * fair_prob - (1 - fair_prob)) /
          (decimal_odds - 1))) ∧
    kelly_fraction decimal_odds fair_prob ≤ 1 := by
  by_cases hb : decimal_odds - 1 ≤ 0
  · have hk : kelly_fraction decimal_odds fair_prob = 0 := by
      simp [kelly_fraction, hb]
    refine ⟨by rw [hk], by rw [hk]; exact h0, fun _ => hk, fun hlt => ?_, by rw [hk]; norm_num⟩
    exact absurd (by linarith : (0:ℚ) < decimal_odds - 1) (not_lt.mpr hb)
  · push_neg at hb
    have hk : kelly_fraction decimal_odds fair_prob =
        max 0 (((decimal_odds - 1) * fair_prob - (1 - fair_prob)) /
          (decimal_odds - 1)) := by
      simp [kelly_fraction, not_le.mpr hb]
    have hub : ((decimal_odds - 1) * fair_prob - (1 - fair_prob)) /
        (decimal_odds - 1) ≤ fair_prob := by
      rw [div_le_iff₀ hb]
      nlinarith
    refine ⟨?_, ?_, ?_, fun _ => hk, ?_⟩
    · rw [hk]; exact le_max_left 0 _
    · rw [hk]; exact max_le h0 hub
    · intro hle; exact absurd (by linarith : (0:ℚ) < decimal_odds - 1)
        (not_lt.mpr (by linarith))
    · rw [hk]; exact le_trans (max_le h0 hub) h1

/-- Witness for `kelly_fraction_bounds` at decimal odds 2 and fair
probability 1/2. -/
theorem kelly_fraction_bounds_witness :
    0 ≤ kelly_fraction 2 (1/2) ∧ kelly_fraction 2 (1/2) ≤ 1/2 :=
  ⟨(kelly_fraction_bounds 2 (1/2) (by norm_num) (by norm_num)).1,
   (kelly_fraction_bounds 2 (1/2) (by norm_num) (by norm_num)).2.1⟩

/-- The checked sharp-book loop never reaches a division by zero and agrees
with the unchecked one. -/
theorem pickFairProbSharpChecked_eq (book_lines : BookLines) (l : List String) :
    pickFairProbSharpChecked book_lines l = some (pickFairProbSharp book_lines l) := by
  induction l with
  | nil => rfl
  | cons sb rest ih =>
    simp only [pickFairProbSharpChecked, pickFairProbSharp]
    cases hlk : lookupBook book_lines sb with
    | none => exact ih
    | some p =>
      by_cases hp : p ≠ 0 ∧ 1 < p
      · simp [hp, safeDiv, hp.1]
      · simp [hp, ih]

/-- Guarded reciprocals succeed on a list of nonzero values. -/
theorem seqReciprocals_of_ne_zero (l : List ℚ) (h : ∀ x ∈ l, x ≠ 0) :
    seqReciprocals l = some (l.map (fun x => 1 / x)) := by
  induction l with
  | nil => rfl
  | cons a t ih =>
    have ha : a ≠ 0 := h a (List.mem_cons_self a t)
    have ht := ih (fun x hx => h x (List.mem_cons_of_mem a hx))
    simp [seqReciprocals, safeDiv, ha, ht]

/-- The checked `imps` comprehension never reaches a division by zero and
agrees with the unchecked one. -/
theorem impsChecked_eq (book_lines : BookLines) :
    impsChecked book_lines = some (imps book_lines) := by
  unfold impsChecked imps
  apply seqReciprocals_of_ne_zero
  intro x hx
  have := List.of_mem_filter hx
  simp only [decide_eq_true_eq] at this
  exact this.1

/-- Claim C10: every division in the numeric helpers is guarded.  Routing
each division site of `implied_prob`, `pick_fair_prob` and `kelly_fraction`
through `safeDiv` (which returns `none` exactly where Python would raise
`ZeroDivisionError`) always yields `some` of the original result: no input
reaches a division-by-zero branch. -/
theorem numeric_helpers_total (decimal_odds fair_prob : ℚ) (book_lines : BookLines) :
    impliedProbChecked decimal_odds = some (implied_prob decimal_odds) ∧
    pickFairProbChecked book_lines = some (pick_fair_prob book_lines) ∧
    kellyFractionChecked decimal_odds fair_prob =
      some (kelly_fraction decimal_odds fair_prob) := by
  refine ⟨?_, ?_, ?_⟩
  · unfold impliedProbChecked implied_prob
    by_cases h : decimal_odds = 0 ∨ decimal_odds ≤ 0
    · simp [h]
    · push_neg at h
      simp [h.1, h.2, not_le.mpr h.2, safeDiv]
  · unfold pickFairProbChecked pick_fair_prob
    rw [pickFairProbSharpChecked_eq, impsChecked_eq]
    cases hs : pickFairProbSharp book_lines SHARP_BOOKS with
    | some r => rfl
    | none =>
      by_cases he : imps book_lines = []
      · simp [he]
      · have hlen : ((imps book_lines).length : ℚ) ≠ 0 :=
          Nat.cast_ne_zero.mpr (Nat.pos_iff_ne_zero.mp (List.length_pos.mpr he))
        simp [he, safeDiv, hlen]
  · unfold kellyFractionChecked kelly_fraction
    by_cases hb : decimal_odds - 1 ≤ 0
    · simp [hb]
    · have hne : decimal_odds - 1 ≠ 0 := fun h0 => hb (le_of_eq h0)
      simp [hb, safeDiv, hne]

/-- A value looked up in an association list is one of its values. -/
theorem lookupBook_mem_values (book_lines : BookLines) (k : String) (p : ℚ)
    (h : lookupBook book_lines k = some p) : p ∈ book_lines.map Prod.snd := by
  induction book_lines with
  | nil => simp [lookupBook] at h
  | cons kv rest ih =>
    obtain ⟨k', v⟩ := kv
    by_cases hk : k' = k
    · simp only [lookupBook, if_pos hk, Option.some.injEq] at h
      simp [h]
    · simp only [lookupBook, if_neg hk] at h
      exact List.mem_cons_of_mem _ (ih h)

/-- The sharp-book loop returns the head's quote as soon as it qualifies. -/
theorem pickFairProbSharp_cons_found (book_lines : BookLines) (sb : String)
    (rest : List String) (p : ℚ) (hlk : lookupBook book_lines sb = some p)
    (hp0 : p ≠ 0) (hp1 : 1 < p) :
    pickFairProbSharp book_lines (sb :: rest) = some (sb, 1 / p) := by
  simp [pickFairProbSharp, hlk, hp0, hp1]

/-- The sharp-book loop skips a head that does not qualify. -/
theorem pickFairProbSharp_cons_skip (book_lines : BookLines) (sb : String)
    (rest : List String) (h : ¬ sharpQualifies book_lines sb) :
    pickFairProbSharp book_lines (sb :: rest) = pickFairProbSharp book_lines rest := by
  simp only [pickFairProbSharp]
  cases hlk : lookupBook book_lines sb with
  | none => rfl
  | some p =>
    have : ¬ (p ≠ 0 ∧ 1 < p) := fun hc => h ⟨p, hlk, hc⟩
    simp [this]

/-- The sharp-book loop misses entirely when no book in the list qualifies. -/
theorem pickFairProbSharp_none (book_lines : BookLines) (l : List String)
    (h : ∀ b ∈ l, ¬ sharpQualifies book_lines b) :
    pickFairProbSharp book_lines l = none := by
  induction l with
  | nil => rfl
  | cons sb rest ih =>
    rw [pickFairProbSharp_cons_skip book_lines sb rest
      (h sb (List.mem_cons_self sb rest))]
    exact ih (fun b hb => h b (List.mem_cons_of_mem sb hb))

/-- The sharp-book loop ignores a non-qualifying prefix. -/
theorem pickFairProbSharp_append (book_lines : BookLines) (pre l : List String)
    (h : ∀ b ∈ pre, ¬ sharpQualifies book_lines b) :
    pickFairProbSharp book_lines (pre ++ l) = pickFairProbSharp book_lines l := by
  induction pre with
  | nil => rfl
  | cons sb rest ih =>
    rw [List.cons_append, pickFairProbSharp_cons_skip book_lines sb _
      (h sb (List.mem_cons_self sb rest))]
    exact ih (fun b hb => h b (List.mem_cons_of_mem sb hb))

/-- A price strictly above `1.0` puts its reciprocal into `imps`. -/
theorem imps_ne_nil (book_lines : BookLines) (x : ℚ)
    (hx : x ∈ book_lines.map Prod.snd) (h1 : 1 < x) : imps book_lines ≠ [] := by
  unfold imps
  intro hnil
  rw [List.map_eq_nil_iff] at hnil
  have : x ∈ (book_lines.map Prod.snd).filter (fun x => decide (x ≠ 0 ∧ 1 < x)) :=
    List.mem_filter.mpr ⟨hx, by simp [ne_of_gt (lt_trans zero_lt_one h1), h1]⟩
  rw [hnil] at this
  exact List.not_mem_nil x this

/-- No price above `1.0` means `imps` is empty. -/
theorem imps_eq_nil (book_lines : BookLines)
    (h : ∀ x ∈ book_lines.map Prod.snd, x ≤ 1) : imps book_lines = [] := by
  unfold imps
  rw [List.map_eq_nil_iff, List.filter_eq_nil_iff]
  intro x hx
  simp [not_lt.mpr (h x hx)]

/-- Claim C1: `pick_fair_prob` returns, for the first book of `SHARP_BOOKS`
present with a truthy price above `1.0`, that book's identifier and implied
probability `1/price` (first match in priority order wins); if no sharp book
qualifies but some price exceeds `1.0`, it returns `"consensus"` with the
arithmetic mean of the implied probabilities of all prices above `1.0`; and
if no price exceeds `1.0` it returns the sentinel `("", 0)`. -/
theorem pick_fair_prob_spec (book_lines : BookLines) :
    (∀ pre sb post p, SHARP_BOOKS = pre ++ sb :: post →
       (∀ b ∈ pre, ¬ sharpQualifies book_lines b) →
       lookupBook book_lines sb = some p → p ≠ 0 → 1 < p →
       pick_fair_prob book_lines = (sb, 1 / p)) ∧
    ((∀ b ∈ SHARP_BOOKS, ¬ sharpQualifies book_lines b) →
       (∃ x ∈ book_lines.map Prod.snd, 1 < x) →
       pick_fair_prob book_lines =
         ("consensus", (imps book_lines).sum / ((imps book_lines).length : ℚ))) ∧
    ((∀ x ∈ book_lines.map Prod.snd, x ≤ 1) →
       pick_fair_prob book_lines = ("", 0)) := by
  refine ⟨?_, ?_, ?_⟩
  · intro pre sb post p hsplit hpre hlk hp0 hp1
    unfold pick_fair_prob
    rw [hsplit, pickFairProbSharp_append book_lines pre _ hpre,
      pickFairProbSharp_cons_found book_lines sb post p hlk hp0 hp1]
  · rintro hsharp ⟨x, hx, h1⟩
    unfold pick_fair_prob
    rw [pickFairProbSharp_none book_lines SHARP_BOOKS hsharp]
    simp [imps_ne_nil book_lines x hx h1]
  · intro hall
    have hsharp : ∀ b ∈ SHARP_BOOKS, ¬ sharpQualifies book_lines b := by
      rintro b _ ⟨p, hlk, _, hp1⟩
      exact absurd (hall p (lookupBook_mem_values book_lines b p hlk)) (not_le.mpr hp1)
    unfold pick_fair_prob
    rw [pickFairProbSharp_none book_lines SHARP_BOOKS hsharp]
    simp [imps_eq_nil book_lines hall]

/-- Witness for `pick_fair_prob_spec`, on the spec's own examples: with
`"pinnacle"` quoting 1.80 the sharp branch fires, and with only target
books quoting 2.00 and 2.20 the consensus branch fires. -/
theorem pick_fair_prob_spec_witness :
    pick_fair_prob [("pinnacle", 9/5), ("bet365", 21/10)] = ("pinnacle", 5/9) ∧
    pick_fair_prob [("bet365", 2), ("unibet", 11/5)] = ("consensus", 21/44) := by
  constructor
  · have h := (pick_fair_prob_spec [("pinnacle", 9/5), ("bet365", 21/10)]).1
      [] "pinnacle" ["betfair_exchange"] (9/5) rfl (by simp)
      (by simp [lookupBook]) (by norm_num) (by norm_num)
    rw [h]
    norm_num
  · have h := (pick_fair_prob_spec [("bet365", 2), ("unibet", 11/5)]).2.1
      ?_ ⟨2, by simp, by norm_num⟩
    · rw [h]
      have himps : imps [("bet365", (2:ℚ)), ("unibet", 11/5)] = [1/2, 5/11] := by
        simp [imps, List.filter]
        norm_num
      rw [himps]
      norm_num
    · rintro b hb ⟨p, hlk, hp0, hp1⟩
      fin_cases hb <;> simp [lookupBook] at hlk

/-- Claim C2: with an entry recorded at time `T`, a candidate at time `now`
is suppressed iff `now - T < cooldown`; in particular it is suppressed at
`T + (cooldown - 1)` and not at `T + cooldown + 1`; and with no prior entry
it is never suppressed once `now ≥ cooldown` (the missing entry defaults to
timestamp `0`). -/
theorem should_suppress_spec (sent : Cache) (k : String) (T now cooldown : ℚ) :
    (lookupBook sent k = some T →
       (should_suppress sent k now cooldown = true ↔ now - T < cooldown)) ∧
    (lookupBook sent k = some T →
       should_suppress sent k (T + (cooldown - 1)) cooldown = true) ∧
    (lookupBook sent k = some T →
       should_suppress sent k (T + cooldown + 1) cooldown = false) ∧
    (lookupBook sent k = none → cooldown ≤ now →
       should_suppress sent k now cooldown = false) := by
  refine ⟨?_, ?_, ?_, ?_⟩
  · intro h
    simp [should_suppress, cacheGetD, h]
  · intro h
    simp only [should_suppress, cacheGetD, h, Option.getD_some, decide_eq_true_eq]
    linarith
  · intro h
    simp only [should_suppress, cacheGetD, h, Option.getD_some, decide_eq_false_iff_not,
      not_lt]
    linarith
  · intro h hcd
    simp only [should_suppress, cacheGetD, h, Option.getD_none, decide_eq_false_iff_not,
      not_lt, sub_zero]
    exact hcd

/-- Witness for `should_suppress_spec`: fingerprint `"f"` recorded at
`T = 100` with a 60-second cooldown is suppressed at `now = 130` and at
`now = 100 + (60 - 1)`, not suppressed at `now = 100 + 60 + 1`; an absent
fingerprint is not suppressed at `now = 130`. -/
theorem should_suppress_spec_witness :
    should_suppress [("f", 100)] "f" 130 60 = true ∧
    should_suppress [("f", 100)] "f" (100 + (60 - 1)) 60 = true ∧
    should_suppress [("f", 100)] "f" (100 + 60 + 1) 60 = false ∧
    should_suppress [("f", 100)] "g" 130 60 = false := by
  have hf : lookupBook [("f", (100:ℚ))] "f" = some 100 := by simp [lookupBook]
  have hg : lookupBook [("f", (100:ℚ))] "g" = none := by simp [lookupBook]
  refine ⟨?_, ?_, ?_, ?_⟩
  · exact ((should_suppress_spec [("f", 100)] "f" 100 130 60).1 hf).mpr (by norm_num)
  · exact (should_suppress_spec [("f", 100)] "f" 100 0 60).2.1 hf
  · exact (should_suppress_spec [("f", 100)] "f" 100 0 60).2.2.1 hf
  · exact (should_suppress_spec [("f", 100)] "g" 0 130 60).2.2.2 hg (by norm_num)

/-- Claim C5: for a two-outcome event with both fair probabilities positive,
the orchestrator divides each by their sum, and the normalized pair sums to
exactly `1`; when either leg is `≤ 0` the whole event is skipped. -/
theorem normalizePair_spec (fair1 fair2 : ℚ) :
    (0 < fair1 → 0 < fair2 →
       normalizePair fair1 fair2 =
         some (fair1 / (fair1 + fair2), fair2 / (fair1 + fair2)) ∧
       fair1 / (fair1 + fair2) + fair2 / (fair1 + fair2) = 1) ∧
    (fair1 ≤ 0 ∨ fair2 ≤ 0 → normalizePair fair1 fair2 = none) := by
  constructor
  · intro h1 h2
    have hs : 0 < fair1 + fair2 := add_pos h1 h2
    have hno : ¬ (fair1 ≤ 0 ∨ fair2 ≤ 0) := by
      rintro (h | h) <;> linarith
    constructor
    · simp [normalizePair, hno, hs]
    · rw [div_add_div_same]
      exact div_self (ne_of_gt hs)
  · intro h
    simp [normalizePair, h]

/-- Witness for `normalizePair_spec`: legs 1/2 and 1/4 normalize to
(2/3, 1/3), which sums to 1; a zero leg skips the event. -/
theorem normalizePair_spec_witness :
    normalizePair (1/2) (1/4) = some (2/3, 1/3) ∧ normalizePair 0 (1/2) = none := by
  constructor
  · have h := ((normalizePair_spec (1/2) (1/4)).1 (by norm_num) (by norm_num)).1
    rw [h]
    norm_num
  · exact (normalizePair_spec 0 (1/2)).2 (Or.inl le_rfl)

/-- `qualifies_pattern_b` characterized: exactly five values, all `≥ 20`. -/
theorem qualifies_pattern_b_iff (pts : List ℤ) :
    qualifies_pattern_b pts = true ↔ pts.length = 5 ∧ ∀ p ∈ pts, 20 ≤ p := by
  simp [qualifies_pattern_b, List.all_eq_true]

/-- `qualifies_pattern_a` characterized: exactly five values, the first four
`≥ 20`, the fifth `< 20`. -/
theorem qualifies_pattern_a_iff (pts : List ℤ) :
    qualifies_pattern_a pts = true ↔
      pts.length = 5 ∧ (∀ p ∈ pts.take 4, 20 ≤ p) ∧ pts.getD 4 0 < 20 := by
  simp [qualifies_pattern_a, List.all_eq_true, and_assoc]

/-- A five-element list contains its fifth element. -/
theorem getD_four_mem (pts : List ℤ) (h5 : pts.length = 5) : pts.getD 4 0 ∈ pts := by
  rw [List.getD_eq_getElem _ _ (by omega)]
  exact List.getElem_mem _

/-- Claim C7: for a list of exactly five point values the matcher returns
the "sustained-five" pattern (`patternB`) iff all five are `≥ 20`, the
"four-then-drop" pattern (`patternA`) iff the first four are `≥ 20` and the
fifth is `< 20` ("sustained-five" is checked first and at most one pattern
is returned); any list whose length is not five yields no pattern; and on
the spec's three test vectors it returns four-then-drop, sustained-five and
no pattern respectively. -/
theorem classifyPattern_spec (pts : List ℤ) :
    (classifyPattern pts = some patternB ↔
       pts.length = 5 ∧ ∀ p ∈ pts, 20 ≤ p) ∧
    (classifyPattern pts = some patternA ↔
       pts.length = 5 ∧ (∀ p ∈ pts.take 4, 20 ≤ p) ∧ pts.getD 4 0 < 20) ∧
    (pts.length ≠ 5 → classifyPattern pts = none) ∧
    classifyPattern [22, 25, 30, 21, 19] = some patternA ∧
    classifyPattern [20, 20, 20, 20, 20] = some patternB ∧
    classifyPattern [19, 25, 30, 21, 15] = none := by
  have hAB : patternA ≠ patternB := by decide
  refine ⟨?_, ?_, ?_, by decide, by decide, by decide⟩
  · rw [← qualifies_pattern_b_iff]
    unfold classifyPattern
    by_cases hb : qualifies_pattern_b pts
    · simp [hb]
    · by_cases ha : qualifies_pattern_a pts
      · simp [hb, ha, hAB]
      · simp [hb, ha]
  · rw [← qualifies_pattern_a_iff]
    unfold classifyPattern
    by_cases hb : qualifies_pattern_b pts
    · have hb5 := (qualifies_pattern_b_iff pts).mp hb
      simp only [hb, if_true]
      constructor
      · intro h
        exact absurd (Option.some.inj h).symm hAB
      · intro ha
        have ha5 := (qualifies_pattern_a_iff pts).mp ha
        have hmem := getD_four_mem pts ha5.1
        have := hb5.2 _ hmem
        linarith [ha5.2.2]
    · by_cases ha : qualifies_pattern_a pts
      · simp [hb, ha]
      · simp [hb, ha]
  · intro h5
    unfold classifyPattern
    have hb : qualifies_pattern_b pts = false := by
      rw [Bool.eq_false_iff]
      intro h
      exact h5 ((qualifies_pattern_b_iff pts).mp h).1
    have ha : qualifies_pattern_a pts = false := by
      rw [Bool.eq_false_iff]
      intro h
      exact h5 ((qualifies_pattern_a_iff pts).mp h).1
    simp [hb, ha]

/-- Witness for `classifyPattern_spec`: a three-game history produces no
pattern and no error. -/
theorem classifyPattern_spec_witness : classifyPattern [30, 30, 30] = none :=
  (classifyPattern_spec [30, 30, 30]).2.2.1 (by decide)

/-- Claim C6 counterexample: changing the price field alone does not always
change the fingerprint — prices 2.0001 and 2.0002 differ but both render as
"2.000" at the fixed 3-decimal precision, so `event_key` yields the same
string for both. -/
theorem event_key_price_collision :
    (20001/10000 : ℚ) ≠ 20002/10000 ∧
    event_key "e" "bk" "p" (20001/10000) (1/2) "basis" =
      event_key "e" "bk" "p" (20002/10000) (1/2) "basis" := by
  constructor
  · norm_num
  · simp only [event_key, formatFixed]
    norm_num [round_eq]

/-- Claim C6 (amended): `event_key` is a pure deterministic function (same
inputs yield the same string) rendering the price at 3 and the fair
probability at 5 decimals; changing any one of the four string fields
(event id, source, label, basis) alone changes the output, while changing
the price (resp. fair probability) alone changes the output exactly when
its fixed 3-decimal (resp. 5-decimal) rendering changes. -/
theorem event_key_amended (e₁ e₂ b₁ b₂ n₁ n₂ ba₁ ba₂ : String) (pr₁ pr₂ f₁ f₂ : ℚ) :
    (event_key e₁ b₁ n₁ pr₁ f₁ ba₁ = event_key e₁ b₁ n₁ pr₁ f₁ ba₁) ∧
    (event_key e₁ b₁ n₁ pr₁ f₁ ba₁ = event_key e₂ b₁ n₁ pr₁ f₁ ba₁ ↔ e₁ = e₂) ∧
    (event_key e₁ b₁ n₁ pr₁ f₁ ba₁ = event_key e₁ b₂ n₁ pr₁ f₁ ba₁ ↔ b₁ = b₂) ∧
    (event_key e₁ b₁ n₁ pr₁ f₁ ba₁ = event_key e₁ b₁ n₂ pr₁ f₁ ba₁ ↔ n₁ = n₂) ∧
    (event_key e₁ b₁ n₁ pr₁ f₁ ba₁ = event_key e₁ b₁ n₁ pr₁ f₁ ba₂ ↔ ba₁ = ba₂) ∧
    (event_key e₁ b₁ n₁ pr₁ f₁ ba₁ = event_key e₁ b₁ n₁ pr₂ f₁ ba₁ ↔
       formatFixed 3 pr₁ = formatFixed 3 pr₂) ∧
    (event_key e₁ b₁ n₁ pr₁ f₁ ba₁ = event_key e₁ b₁ n₁ pr₁ f₂ ba₁ ↔
       formatFixed 5 f₁ = formatFixed 5 f₂) := by
  refine ⟨rfl, ?_, ?_, ?_, ?_, ?_, ?_⟩ <;>
    simp [event_key, String.ext_iff, String.data_append, List.append_assoc]

/-- Claim C3 counterexample: in the NBA scanner a failed dispatch does not
skip the cache write.  With an empty cache, a 10-second cooldown at time
100, and a candidate whose pattern fires but whose Telegram POST fails
(`sendOk = false`), the per-player step still records the cache entry. -/
theorem nba_failed_dispatch_records_cache :
    (nbaStep 100 10 ([], []) ⟨"k", false, true⟩).1 = [("k", 100)] := by
  have hs : should_suppress [] "k" 100 10 = false := by
    norm_num [should_suppress, cacheGetD, lookupBook]
  simp [nbaStep, hs, insertCache]

/-- Claim C3 (amended): in the tennis scanner a failed dispatch leaves the
cache unchanged for that fingerprint (it is recorded only after a
successful dispatch, and suppression also leaves it unchanged); in the NBA
scanner the dispatch failure is swallowed inside `send_telegram`, so the
cache entry is recorded whenever an unsuppressed pattern alert is
attempted, regardless of dispatch success. -/
theorem dispatch_failure_cache (now cooldown : ℚ) (st : Cache × List ScanEvent) (c : Cand) :
    (c.sendOk = false → (tennisStep now cooldown st c).1 = st.1) ∧
    (should_suppress st.1 c.key now cooldown = true →
       (tennisStep now cooldown st c).1 = st.1) ∧
    (should_suppress st.1 c.key now cooldown = false → c.sendOk = true →
       (tennisStep now cooldown st c).1 = insertCache st.1 c.key now) ∧
    (should_suppress st.1 c.key now cooldown = false → c.hasPattern = true →
       (nbaStep now cooldown st c).1 = insertCache st.1 c.key now) := by
  refine ⟨?_, ?_, ?_, ?_⟩
  · intro hfail
    unfold tennisStep
    by_cases hs : should_suppress st.1 c.key now cooldown <;> simp [hs, hfail]
  · intro hs
    simp [tennisStep, hs]
  · intro hs hok
    simp [tennisStep, hs, hok]
  · intro hs hpat
    simp [nbaStep, hs, hpat]

/-- Witness for `dispatch_failure_cache` at time 100, cooldown 10, empty
cache: a failed tennis dispatch leaves the cache empty, a successful tennis
dispatch records the entry, and an NBA pattern candidate records the entry
even though its dispatch fails. -/
theorem dispatch_failure_cache_witness :
    (tennisStep 100 10 ([], []) ⟨"k", false, true⟩).1 = [] ∧
    (tennisStep 100 10 ([], []) ⟨"k", true, true⟩).1 = [("k", 100)] ∧
    (nbaStep 100 10 ([], []) ⟨"j", false, true⟩).1 = [("j", 100)] := by
  have hsk : should_suppress [] "k" 100 10 = false := by
    norm_num [should_suppress, cacheGetD, lookupBook]
  have hsj : should_suppress [] "j" 100 10 = false := by
    norm_num [should_suppress, cacheGetD, lookupBook]
  refine ⟨?_, ?_, ?_⟩
  · exact (dispatch_failure_cache 100 10 ([], []) ⟨"k", false, true⟩).1 rfl
  · rw [(dispatch_failure_cache 100 10 ([], []) ⟨"k", true, true⟩).2.2.1 hsk rfl]
    rfl
  · rw [(dispatch_failure_cache 100 10 ([], []) ⟨"j", false, true⟩).2.2.2 hsj rfl]
    rfl

/-- Saves in a concatenated trace add up. -/
theorem countSaves_append (l₁ l₂ : List ScanEvent) :
    countSaves (l₁ ++ l₂) = countSaves l₁ + countSaves l₂ := by
  simp [countSaves, List.filter_append]

/-- The tennis per-candidate step never emits a save event. -/
theorem tennisStep_countSaves (now cooldown : ℚ) (st : Cache × List ScanEvent) (c : Cand) :
    countSaves (tennisStep now cooldown st c).2 = countSaves st.2 := by
  unfold tennisStep
  by_cases hs : should_suppress st.1 c.key now cooldown
  · simp [hs]
  · by_cases hk : c.sendOk <;> simp [hs, hk, countSaves_append, countSaves]

/-- The NBA per-player step never emits a save event. -/
theorem nbaStep_countSaves (now cooldown : ℚ) (st : Cache × List ScanEvent) (c : Cand) :
    countSaves (nbaStep now cooldown st c).2 = countSaves st.2 := by
  unfold nbaStep
  by_cases hs : should_suppress st.1 c.key now cooldown
  · simp [hs]
  · by_cases hp : c.hasPattern
    · by_cases hk : c.sendOk <;>
        simp [hs, hp, hk, nbaSendTelegram, countSaves_append, countSaves]
    · simp [hs, hp]

/-- Folding the tennis step over a run emits no save events. -/
theorem foldl_tennisStep_countSaves (now cooldown : ℚ) (cands : List Cand)
    (st : Cache × List ScanEvent) :
    countSaves ((cands.foldl (tennisStep now cooldown) st).2) = countSaves st.2 := by
  induction cands generalizing st with
  | nil => rfl
  | cons c t ih => rw [List.foldl_cons, ih, tennisStep_countSaves]

/-- Folding the NBA step over a run emits no save events. -/
theorem foldl_nbaStep_countSaves (now cooldown : ℚ) (cands : List Cand)
    (st : Cache × List ScanEvent) :
    countSaves ((cands.foldl (nbaStep now cooldown) st).2) = countSaves st.2 := by
  induction cands generalizing st with
  | nil => rfl
  | cons c t ih => rw [List.foldl_cons, ih, nbaStep_countSaves]

/-- Claim C4 counterexample: in the tennis scanner a failed cache save is
not caught — `run_scan` propagates it as an error (fatal to the run), even
for an empty run. -/
theorem run_scan_save_failure_fatal :
    run_scan [] [] 0 0 false = Except.error "save failed" := rfl

/-- Claim C4 (amended): in both scanners the cache save is attempted
exactly once, at the end of the run, writing the full final in-memory
mapping, regardless of per-item dispatch failures and even for a run with
zero alerts; in the NBA scanner a failed save is caught and silently
swallowed (the run still completes, nothing is saved), while in the tennis
scanner a failed save propagates and aborts the run. -/
theorem save_once_at_end (cands ncands : List Cand) (cache0 ncache0 : Cache)
    (now cooldown : ℚ) :
    (∃ fin evs, run_scan cands cache0 now cooldown true =
        Except.ok (fin, evs ++ [ScanEvent.saved fin]) ∧ countSaves evs = 0) ∧
    (run_scan cands cache0 now cooldown false = Except.error "save failed") ∧
    (∃ fin evs, nbaMain ncands ncache0 now cooldown true =
        (fin, evs ++ [ScanEvent.saved fin]) ∧ countSaves evs = 0) ∧
    (∃ fin evs, nbaMain ncands ncache0 now cooldown false = (fin, evs) ∧
        countSaves evs = 0) := by
  refine ⟨?_, rfl, ?_, ?_⟩
  · exact ⟨(cands.foldl (tennisStep now cooldown) (cache0, [])).1,
      (cands.foldl (tennisStep now cooldown) (cache0, [])).2, rfl,
      foldl_tennisStep_countSaves now cooldown cands (cache0, [])⟩
  · exact ⟨(ncands.foldl (nbaStep now cooldown) (ncache0, [])).1,
      (ncands.foldl (nbaStep now cooldown) (ncache0, [])).2, rfl,
      foldl_nbaStep_countSaves now cooldown ncands (ncache0, [])⟩
  · exact ⟨(ncands.foldl (nbaStep now cooldown) (ncache0, [])).1,
      (ncands.foldl (nbaStep now cooldown) (ncache0, [])).2, rfl,
      foldl_nbaStep_countSaves now cooldown ncands (ncache0, [])⟩

end TennisOddsAlert
